import Mathlib

/-!
Verification of the schema-validation and model-binding engine of
`qiskit-core` (files `qiskit/validation/base.py` and `qiskit/models/base.py`)
against its natural-language specification.

The embedding models:
* untyped Python values and dicts (association lists with extensional
  dict equality, since Python dict equality ignores insertion order);
* marshmallow-style field declarations and the field (de)serialization loop
  (modelled from the spec, since the marshmallow library itself is an
  external dependency);
* the repository's hooks `dump_additional_data`, `load_additional_data`,
  `make_model`, the `_BindSchema` binder of `qiskit/validation/base.py`,
  the `BindSchema` binder of `qiskit/models/base.py`, and the polymorphic
  field `OneTypeOf`.
-/

namespace QiskitValidation

/-- Untyped primitive Python values appearing in the maps the engine
processes. -/
inductive Value where
  | str (s : String)
  | int (n : Int)
  | bool (b : Bool)
  deriving DecidableEq, Repr

/-- A Python dict of string keys, as an association list; lookups take the
first matching entry, and equality of dicts is extensional (key-by-key). -/
abbrev Dict := List (String × Value)

/-- Python `d.get(k)` / `d[k]`: the value bound to the first occurrence of
the key. -/
def Dict.find : Dict → String → Option Value
  | [], _ => none
  | (k', v) :: rest, k => if k' = k then some v else Dict.find rest k

/-- The list of keys of a dict. -/
def Dict.keys (d : Dict) : List String := d.map Prod.fst

/-- Python dict equality: the two dicts bind the same value (or no value)
to every key. -/
def Dict.equiv (d₁ d₂ : Dict) : Prop := ∀ k, d₁.find k = d₂.find k

/-- Dict equivalence is checkable by scanning the keys of both dicts. -/
def Dict.beq (d₁ d₂ : Dict) : Bool :=
  (d₁.keys ++ d₂.keys).all fun k => d₁.find k == d₂.find k

theorem Dict.find_eq_none_of_not_mem_keys {d : Dict} {k : String}
    (h : k ∉ d.keys) : d.find k = none := by
  induction d with
  | nil => rfl
  | cons hd tl ih =>
    simp only [Dict.keys, List.map_cons, List.mem_cons] at h
    push_neg at h
    rw [Dict.find, if_neg fun he => h.1 he.symm,
      ih (by simpa [Dict.keys] using h.2)]

theorem Dict.beq_iff_equiv (d₁ d₂ : Dict) : d₁.beq d₂ = true ↔ d₁.equiv d₂ := by
  constructor
  · intro h k
    by_cases hk : k ∈ d₁.keys ++ d₂.keys
    · have := (List.all_eq_true.mp h) k hk
      exact eq_of_beq this
    · simp only [List.mem_append] at hk
      push_neg at hk
      rw [Dict.find_eq_none_of_not_mem_keys hk.1,
        Dict.find_eq_none_of_not_mem_keys hk.2]
  · intro h
    refine List.all_eq_true.mpr fun k _ => beq_iff_eq.mpr (h k)

instance (d₁ d₂ : Dict) : Decidable (d₁.equiv d₂) :=
  decidable_of_iff _ (Dict.beq_iff_equiv d₁ d₂)

/-- The declared type of a primitive marshmallow field (String, Integer,
Boolean). -/
inductive FType where
  | str
  | int
  | bool
  deriving DecidableEq, Repr

/-- Whether a raw value conforms to a declared field type. -/
def typeCheck : FType → Value → Bool
  | .str, .str _ => true
  | .int, .int _ => true
  | .bool, .bool _ => true
  | _, _ => false

/-- A declared marshmallow field: a name, a required flag and a primitive
type. -/
structure FieldDescr where
  name : String
  required : Bool
  ftype : FType
  deriving DecidableEq, Repr

/-- Error payload of a marshmallow `ValidationError`: either the per-field
message map produced by (de)serialization, or a plain message string. -/
inductive ErrContent where
  | fieldMessages (msgs : List (String × String))
  | message (s : String)
  deriving DecidableEq, Repr

/-- The exception taxonomy the engine raises: marshmallow's
`ValidationError`, and the built-in `ValueError` that
`_BindSchema.__call__` raises on a second binding (the spec's
`BindingError`). -/
inductive PyError where
  | validationError (content : ErrContent)
  | valueError (msg : String)
  deriving DecidableEq, Repr

deriving instance DecidableEq for Except

/-- Whether an exception is (an instance of) marshmallow's
`ValidationError`. -/
def PyError.isValidationError : PyError → Bool
  | .validationError _ => true
  | .valueError _ => false

/-- Modelled from the spec: marshmallow's declared-field loop shared by
`load` and `validate` (the marshmallow library is not part of the
repository sources). For each declared field, the value extracted from the
raw map is type-checked; a missing required field or an ill-typed value
contributes a field-level error, and *all* field errors are collected.
Returns the validated declared data together with the error list. -/
def loadFields : List FieldDescr → Dict → Dict × List (String × String)
  | [], _ => ([], [])
  | f :: rest, d =>
    let (vs, es) := loadFields rest d
    match d.find f.name with
    | some v =>
        if typeCheck f.ftype v then ((f.name, v) :: vs, es)
        else (vs, (f.name, "Not a valid value.") :: es)
    | none =>
        if f.required then (vs, (f.name, "Missing data for required field.") :: es)
        else (vs, es)

/-- The error a single declared field contributes on load, if any. -/
def fieldError (f : FieldDescr) (d : Dict) : Option (String × String) :=
  match d.find f.name with
  | some v =>
      if typeCheck f.ftype v then none
      else some (f.name, "Not a valid value.")
  | none =>
      if f.required then some (f.name, "Missing data for required field.")
      else none

/-- `BaseSchema.load_additional_data` (qiskit/validation/base.py:117-136):
after loading, every key of the original raw map that is not among the
validated keys is carried over unprocessed. -/
def load_additional_data (valid_data : Dict) (original_data : Dict) : Dict :=
  valid_data ++ original_data.filter fun kv => decide (kv.1 ∉ valid_data.keys)

/-- Modelled from the spec: marshmallow serializes each declared field that
is present on the model; primitive fields serialize to themselves. -/
def dumpFields (fields : List FieldDescr) (m : Dict) : Dict :=
  fields.filterMap fun f => (m.find f.name).map fun v => (f.name, v)

/-- `BaseSchema.dump_additional_data` (qiskit/validation/base.py:96-115):
after dumping, every attribute of the original model that is not among the
dumped keys is copied over verbatim. -/
def dump_additional_data (valid_data : Dict) (original_data : Dict) : Dict :=
  valid_data ++ original_data.filter fun kv => decide (kv.1 ∉ valid_data.keys)

/-- A bound model instance: its attribute bag (`SimpleNamespace.__dict__`).
`make_model` (qiskit/validation/base.py:138-142) constructs it by passing
all named values to the model constructor. -/
def make_model (data : Dict) : Dict := data

/-- `Schema.load` of the base schema: the declared-field loop, then the
`post_load` hooks `load_additional_data` and `make_model`
(qiskit/validation/base.py:117-142). Returns the (possibly partial) model
data together with the collected errors, as marshmallow 2 does. -/
def schemaLoad (fields : List FieldDescr) (d : Dict) :
    Dict × List (String × String) :=
  let (valid_data, errors) := loadFields fields d
  (make_model (load_additional_data valid_data d), errors)

/-- `Schema.dump` of the base schema: declared-field serialization, then the
`post_dump` hook `dump_additional_data` (qiskit/validation/base.py:96-115).
Primitive fields never fail to serialize, so the error list is empty. -/
def schemaDump (fields : List FieldDescr) (m : Dict) :
    Dict × List (String × String) :=
  (dump_additional_data (dumpFields fields m) m, [])

/-- `Schema.validate`: runs the declared-field loop on a raw map and
returns the collected field-level errors (modelled from the spec for the
marshmallow part: `validate(data) -> list_of_errors`). -/
def schemaValidate (fields : List FieldDescr) (d : Dict) :
    List (String × String) :=
  (loadFields fields d).2

/-- `_BindSchema._to_dict` (qiskit/validation/base.py:172-178): dump the
instance and raise `ValidationError` if any errors were produced. -/
def to_dict (fields : List FieldDescr) (instance_ : Dict) :
    Except PyError Dict :=
  let (data, errors) := schemaDump fields instance_
  if errors ≠ [] then .error (.validationError (.fieldMessages errors))
  else .ok data

/-- `_BindSchema._from_dict` (qiskit/validation/base.py:187-193): load the
dict and raise `ValidationError` if any errors were produced; otherwise
return the constructed model. -/
def from_dict (fields : List FieldDescr) (dct : Dict) : Except PyError Dict :=
  let (data, errors) := schemaLoad fields dct
  if errors ≠ [] then .error (.validationError (.fieldMessages errors))
  else .ok data

/-- `_BindSchema._validate` (qiskit/validation/base.py:180-185): validate
`to_dict()` of the instance against the schema and raise `ValidationError`
on any error. -/
def validateInstance (fields : List FieldDescr) (instance_ : Dict) :
    Except PyError Unit :=
  match to_dict fields instance_ with
  | .error e => .error e
  | .ok d =>
      let errors := schemaValidate fields d
      if errors ≠ [] then .error (.validationError (.fieldMessages errors))
      else .ok ()

/-- The constructor of a bound model class after
`_BindSchema._validate_after_init` (qiskit/validation/base.py:195-206):
the original constructor body runs (storing all keyword arguments as
attributes, as `SimpleNamespace` does), then `self._validate()` runs; a
validation failure propagates out of the constructor, so the call never
returns an instance. -/
def construct (fields : List FieldDescr) (kwargs : Dict) :
    Except PyError Dict :=
  let self := make_model kwargs
  match validateInstance fields self with
  | .error e => .error e
  | .ok () => .ok self

/-- The model classes appearing in binding scenarios: the default
`SimpleNamespace` that `BaseSchema.model_cls` holds, or a user model class
identified by a number. -/
inductive ModelCls where
  | simpleNamespace
  | user (n : Nat)
  deriving DecidableEq, Repr

/-- A schema class as the binder sees it: the `model_cls` entry of its own
`__dict__` (absent, or present and possibly `None`), and the `model_cls`
it would inherit from its parent class. -/
structure SchemaCls where
  ownModelCls : Option (Option ModelCls)
  inheritedModelCls : Option ModelCls
  deriving DecidableEq, Repr

/-- Python attribute lookup `schema_cls.model_cls`: the own `__dict__`
entry if present, else the inherited one. -/
def SchemaCls.modelCls (s : SchemaCls) : Option ModelCls :=
  match s.ownModelCls with
  | some v => v
  | none => s.inheritedModelCls

/-- The check `schema_cls.__dict__.get('model_cls', None) is not None` of
`_BindSchema.__call__` (qiskit/validation/base.py:158): the binding
attribute is looked up directly on the definition, not inherited. -/
def SchemaCls.directModelCls (s : SchemaCls) : Option ModelCls :=
  match s.ownModelCls with
  | some v => v
  | none => none

/-- `class Sub(S): pass`: a fresh subclass has an empty own `__dict__` and
inherits the parent's `model_cls`. -/
def subclassSchema (s : SchemaCls) : SchemaCls :=
  { ownModelCls := none, inheritedModelCls := s.modelCls }

/-- `BaseSchema` itself (qiskit/validation/base.py:83-94): it declares
`model_cls = SimpleNamespace` directly in its own class body. -/
def BaseSchemaCls : SchemaCls :=
  { ownModelCls := some (some .simpleNamespace), inheritedModelCls := none }

/-- `_BindSchema.__call__` (qiskit/validation/base.py:153-170): raise
`ValueError` when the schema class already has a non-`None` `model_cls`
directly in its own `__dict__`; otherwise set `model_cls` on the schema
class (an entry in its own `__dict__`) and return the augmented model
class. -/
def bindSchemaCall (s : SchemaCls) (m : ModelCls) :
    Except PyError SchemaCls :=
  if (s.directModelCls).isSome then
    .error (.valueError "The schema can not be bound twice. It is already bound. If you want to reuse the schema, use subclassing")
  else
    .ok { s with ownModelCls := some (some m) }

/-- State of a `ModelSchema` subclass in `qiskit/models/base.py`: the value
of its class attribute `model_cls`, shared by all its schema instances. -/
structure MSchemaCls where
  model_cls : ModelCls
  deriving DecidableEq, Repr

/-- `BindSchema.__call__` of `qiskit/models/base.py` (lines 53-59): no
already-bound check is performed; the schema class attribute `model_cls`
is overwritten with the new model class, and the model class is returned.
This never raises. -/
def mBindSchemaCall (_s : MSchemaCls) (m : ModelCls) :
    Except PyError MSchemaCls :=
  .ok { model_cls := m }

/-- `ModelSchema.make_model` (qiskit/models/base.py:43-45): the schema
instance reads `model_cls` off its class at call time, so `from_dict`
constructs an instance of whatever class the schema class currently points
to. -/
def mMakeModel (s : MSchemaCls) (data : Dict) : ModelCls × Dict :=
  (s.model_cls, data)

/-- `BindSchema._from_dict` of `qiskit/models/base.py` (lines 68-73),
with `ModelSchema.load` as the declared-field loop followed by
`load_additional_data` and `make_model` (lines 34-45). -/
def mFromDict (s : MSchemaCls) (fields : List FieldDescr) (dct : Dict) :
    Except PyError (ModelCls × Dict) :=
  let (valid_data, errors) := loadFields fields dct
  if errors ≠ [] then .error (.validationError (.fieldMessages errors))
  else .ok (mMakeModel s (load_additional_data valid_data dct))

/-- Schema instances named in a `OneTypeOf` choices mapping, identified by
a number. -/
abbrev SchemaId := Nat

/-- The `OneTypeOf` polymorphic field (qiskit/validation/base.py:20-58)
after `__init__` ran: the choices mapping and the two hinter functions.
`__init__` stores `hinter` as the load hinter and `dump_hinter or hinter`
as the dump hinter. -/
structure OneTypeOf where
  choices : List (String × SchemaId)
  loadHinter : Dict → String
  dumpHinter : Dict → String

/-- `OneTypeOf.__init__` (qiskit/validation/base.py:53-58): `hinter`
becomes the load hinter; the dump hinter is `dump_hinter or hinter`, i.e.
`hinter` when no `dump_hinter` is given. -/
def OneTypeOf.init (choices : List (String × SchemaId))
    (hinter : Dict → String) (dump_hinter : Option (Dict → String)) :
    OneTypeOf :=
  { choices := choices
    loadHinter := hinter
    dumpHinter := dump_hinter.getD hinter }

/-- Python `self._choices[hint]`: lookup of the tag in the choices dict. -/
def lookupChoice (choices : List (String × SchemaId)) (tag : String) :
    Option SchemaId :=
  match choices with
  | [] => none
  | (k, s) :: rest => if k = tag then some s else lookupChoice rest tag

/-- `OneTypeOf._deserialization_selector` (qiskit/validation/base.py:71-80):
apply the load hinter to the raw data, look the tag up in the choices;
a missing tag raises marshmallow's `ValidationError`. -/
def deserializationSelector (o : OneTypeOf) (data : Dict) :
    Except PyError SchemaId :=
  let hint := o.loadHinter data
  match lookupChoice o.choices hint with
  | some schema => .ok schema
  | none => .error (.validationError (.message
      "Cannot find a schema. The hint must be one of the choices."))

/-- `OneTypeOf._serialization_selector` (qiskit/validation/base.py:60-69):
apply the dump hinter to the object, look the tag up in the choices;
a missing tag raises marshmallow's `ValidationError`. -/
def serializationSelector (o : OneTypeOf) (data : Dict) :
    Except PyError SchemaId :=
  let hint := o.dumpHinter data
  match lookupChoice o.choices hint with
  | some schema => .ok schema
  | none => .error (.validationError (.message
      "Cannot find a schema. The hint must be one of the choices."))

/-! ### Lemmas about dict lookup -/

theorem Dict.find_append (a b : Dict) (k : String) :
    Dict.find (a ++ b) k = (a.find k).or (b.find k) := by
  induction a with
  | nil => simp [Dict.find]
  | cons hd tl ih =>
    by_cases h : hd.1 = k
    · simp [Dict.find, h]
    · simpa [Dict.find, h] using ih

theorem Dict.find_filter (p : String → Bool) (d : Dict) (k : String)
    (hp : p k = true) :
    Dict.find (d.filter fun kv => p kv.1) k = d.find k := by
  induction d with
  | nil => rfl
  | cons hd tl ih =>
    by_cases h : hd.1 = k
    · have : p hd.1 = true := by rw [h]; exact hp
      simp [Dict.find, List.filter_cons, this, h, hp]
    · by_cases hpk : p hd.1 = true
      · simp only [List.filter_cons, hpk, if_pos]
        rw [Dict.find, if_neg h, Dict.find, if_neg h]
        exact ih
      · simp only [List.filter_cons, hpk]
        rw [Dict.find, if_neg h]
        exact ih

theorem Dict.not_mem_keys_of_find_eq_none {d : Dict} {k : String}
    (h : d.find k = none) : k ∉ d.keys := by
  induction d with
  | nil => simp [Dict.keys]
  | cons hd tl ih =>
    rw [Dict.find] at h
    by_cases he : hd.1 = k
    · rw [if_pos he] at h; exact absurd h (by simp)
    · rw [if_neg he] at h
      simp only [Dict.keys, List.map_cons, List.mem_cons]
      push_neg
      exact ⟨fun hk => he hk.symm, by simpa [Dict.keys] using ih h⟩

/-- Key property of both `*_additional_data` hooks: if every key the
validated data binds agrees with the original data, then the hook's output
binds exactly what the original data binds, at every key. -/
theorem find_load_additional_data (valid_data original_data : Dict)
    (h : ∀ k v, valid_data.find k = some v → original_data.find k = some v)
    (k : String) :
    Dict.find (load_additional_data valid_data original_data) k
      = original_data.find k := by
  rw [load_additional_data, Dict.find_append]
  cases hv : valid_data.find k with
  | some v => simpa [Option.or] using (h k v hv).symm
  | none =>
    have hk : k ∉ valid_data.keys := Dict.not_mem_keys_of_find_eq_none hv
    rw [Option.none_or,
      Dict.find_filter (fun s => decide (s ∉ valid_data.keys)) original_data k
        (by simpa using hk)]

/-- The two hooks have the same body. -/
theorem dump_additional_data_eq (valid_data original_data : Dict) :
    dump_additional_data valid_data original_data
      = load_additional_data valid_data original_data := rfl

/-! ### Lemmas about the field loops -/

theorem dumpFields_find_sub (fields : List FieldDescr) (m : Dict)
    (k : String) (v : Value)
    (h : Dict.find (dumpFields fields m) k = some v) :
    m.find k = some v := by
  induction fields with
  | nil => exact absurd h (by simp [dumpFields, Dict.find])
  | cons f rest ih =>
    rw [dumpFields, List.filterMap_cons] at h
    cases hm : m.find f.name with
    | none => rw [hm] at h; exact ih h
    | some w =>
      rw [hm] at h
      rw [show (some w).map (fun v => (f.name, v)) = some (f.name, w) from rfl] at h
      rw [Dict.find] at h
      by_cases he : f.name = k
      · rw [if_pos he] at h
        rw [← he, hm, h]
      · rw [if_neg he] at h
        exact ih h

theorem loadFields_fst_find_sub (fields : List FieldDescr) (d : Dict)
    (k : String) (v : Value)
    (h : Dict.find (loadFields fields d).1 k = some v) :
    d.find k = some v := by
  induction fields with
  | nil => exact absurd h (by simp [loadFields, Dict.find])
  | cons f rest ih =>
    rw [loadFields] at h
    cases hd : d.find f.name with
    | none =>
      rw [hd] at h
      by_cases hr : f.required <;> simp only [hr] at h <;> exact ih h
    | some w =>
      rw [hd] at h
      by_cases ht : typeCheck f.ftype w
      · simp only [ht, if_true] at h
        rw [Dict.find] at h
        by_cases he : f.name = k
        · rw [if_pos he] at h
          rw [← he, hd, h]
        · rw [if_neg he] at h
          exact ih h
      · simp only [ht] at h
        exact ih h

/-- The errors `loadFields` collects are exactly the per-field errors of
every declared field, in declaration order: error collection is complete,
not fail-fast. -/
theorem loadFields_snd_eq_filterMap (fields : List FieldDescr) (d : Dict) :
    (loadFields fields d).2 = fields.filterMap fun f => fieldError f d := by
  induction fields with
  | nil => rfl
  | cons f rest ih =>
    rw [loadFields, List.filterMap_cons, fieldError]
    cases hd : d.find f.name with
    | none =>
      by_cases hr : f.required <;> simp [hr, ih]
    | some w =>
      by_cases ht : typeCheck f.ftype w <;> simp [ht, ih]

/-- The errors `loadFields` collects depend only on the values the raw map
binds to the declared field names. -/
theorem loadFields_snd_congr (fields : List FieldDescr) (d₁ d₂ : Dict)
    (h : ∀ f ∈ fields, d₁.find f.name = d₂.find f.name) :
    (loadFields fields d₁).2 = (loadFields fields d₂).2 := by
  rw [loadFields_snd_eq_filterMap, loadFields_snd_eq_filterMap]
  refine List.filterMap_congr fun f hf => ?_
  rw [fieldError, fieldError, h f hf]

/-! ### Characterizations of `to_dict`, `from_dict`, `validateInstance` -/

/-- `to_dict` never raises for primitive schemas, and its output binds the
same value as the instance's attribute bag at every key. -/
theorem to_dict_ok (fields : List FieldDescr) (m : Dict) :
    ∃ t, to_dict fields m = .ok t ∧ ∀ k, t.find k = m.find k := by
  refine ⟨dump_additional_data (dumpFields fields m) m, rfl, fun k => ?_⟩
  rw [dump_additional_data_eq]
  exact find_load_additional_data _ m (dumpFields_find_sub fields m) k

/-- `from_dict` succeeds exactly when the declared-field loop collects no
errors, and the resulting model binds the same value as the raw map at
every key. -/
theorem from_dict_ok (fields : List FieldDescr) (d : Dict)
    (h : (loadFields fields d).2 = []) :
    ∃ m, from_dict fields d = .ok m ∧ ∀ k, m.find k = d.find k := by
  refine ⟨make_model (load_additional_data (loadFields fields d).1 d), ?_, fun k => ?_⟩
  · rw [from_dict, schemaLoad]
    simp [h]
  · rw [make_model]
    exact find_load_additional_data _ d (loadFields_fst_find_sub fields d) k

theorem from_dict_error (fields : List FieldDescr) (d : Dict)
    (h : (loadFields fields d).2 ≠ []) :
    from_dict fields d
      = .error (.validationError (.fieldMessages (loadFields fields d).2)) := by
  rw [from_dict, schemaLoad]
  simp [h]

/-- `validateInstance` succeeds exactly when the declared-field loop
collects no errors on the dumped instance. -/
theorem validateInstance_ok_iff (fields : List FieldDescr) (m : Dict) :
    validateInstance fields m = .ok ()
      ↔ (loadFields fields (dump_additional_data (dumpFields fields m) m)).2 = [] := by
  rw [validateInstance, to_dict, schemaDump]
  simp only [ne_eq, not_true_eq_false, if_false, schemaValidate]
  constructor
  · intro h
    by_cases he : (loadFields fields (dump_additional_data (dumpFields fields m) m)).2 = []
    · exact he
    · simp [he] at h
  · intro h
    simp [h]

/-- `validateInstance` fails with a `ValidationError` carrying the field
messages exactly when the declared-field loop collects errors on the
dumped instance. -/
theorem validateInstance_error (fields : List FieldDescr) (m : Dict)
    (h : (loadFields fields (dump_additional_data (dumpFields fields m) m)).2 ≠ []) :
    validateInstance fields m = .error (.validationError (.fieldMessages
      (loadFields fields (dump_additional_data (dumpFields fields m) m)).2)) := by
  rw [validateInstance, to_dict, schemaDump]
  simp [schemaValidate, h]

/-- Looking up any key on the output of `to_dict`'s dump gives exactly what
the model's attribute bag binds. -/
theorem dump_find (fields : List FieldDescr) (m : Dict) (k : String) :
    Dict.find (dump_additional_data (dumpFields fields m) m) k = m.find k := by
  rw [dump_additional_data_eq]
  exact find_load_additional_data _ m (dumpFields_find_sub fields m) k

theorem from_dict_ok_inv (fields : List FieldDescr) (d m' : Dict)
    (h : from_dict fields d = .ok m') :
    (loadFields fields d).2 = [] ∧ ∀ k, m'.find k = d.find k := by
  by_cases he : (loadFields fields d).2 = []
  · obtain ⟨m'', hm'', hf⟩ := from_dict_ok fields d he
    rw [h] at hm''
    cases hm''
    exact ⟨he, hf⟩
  · rw [from_dict_error fields d he] at h
    cases h

/-- `construct` in closed form: validate the dumped attribute bag; return
the instance exactly when no error was collected. -/
theorem construct_eq (fields : List FieldDescr) (kwargs : Dict) :
    construct fields kwargs =
      if (loadFields fields (dump_additional_data (dumpFields fields kwargs) kwargs)).2 = []
      then .ok kwargs
      else .error (.validationError (.fieldMessages
        (loadFields fields (dump_additional_data (dumpFields fields kwargs) kwargs)).2)) := by
  rw [construct, validateInstance, to_dict, schemaDump]
  by_cases h :
      (loadFields fields (dump_additional_data (dumpFields fields kwargs) kwargs)).2 = [] <;>
    simp [h, schemaValidate, make_model]

/-! ### Concrete scenarios from the spec -/

/-- The spec's concrete scenario: a schema with one required string field
`name`. -/
def exampleFields : List FieldDescr := [⟨"name", true, FType.str⟩]

/-- The spec's concrete construction arguments: a declared `name` plus an
undeclared `other`. -/
def fooBar : Dict := [("name", Value.str "Foo"), ("other", Value.str "bar")]

/-- A raw map with the declared `name` plus an undeclared `extra` key. -/
def withExtra : Dict := [("name", Value.str "Foo"), ("extra", Value.int 1)]

/-- A polymorphic field whose choices know only the `Book` tag while its
hinter answers `Album`, an unregistered tag. -/
def exampleOneTypeOf : OneTypeOf :=
  OneTypeOf.init [("Book", 0)] (fun _ => "Album") none

/-! ### The claims -/

/-- C1: for every valid model of a bound class, `from_dict (to_dict m)`
yields a model equal to `m` in declared and additional fields, and for
every map `d` that loads successfully, `to_dict (from_dict d)` equals `d`
as a dict. -/
theorem C1_roundtrip_identity (fields : List FieldDescr) (m d : Dict) :
    (validateInstance fields m = .ok () →
      ∃ t m', to_dict fields m = .ok t ∧ from_dict fields t = .ok m' ∧ m'.equiv m)
    ∧ ∀ m', from_dict fields d = .ok m' →
      ∃ t, to_dict fields m' = .ok t ∧ t.equiv d := by
  constructor
  · intro hv
    rw [validateInstance_ok_iff] at hv
    obtain ⟨m', hm', hfind⟩ := from_dict_ok fields _ hv
    refine ⟨_, m', ?_, hm', fun k => ?_⟩
    · rw [to_dict, schemaDump]
      simp
    · rw [hfind k, dump_find]
  · intro m' hm'
    obtain ⟨-, hfind⟩ := from_dict_ok_inv fields d m' hm'
    obtain ⟨t, ht, htf⟩ := to_dict_ok fields m'
    exact ⟨t, ht, fun k => by rw [htf k, hfind k]⟩

/-- C1 witness: the round trip at the spec's concrete model. -/
theorem C1_roundtrip_identity_witness :
    ∃ t m', to_dict exampleFields fooBar = .ok t ∧
      from_dict exampleFields t = .ok m' ∧ m'.equiv fooBar :=
  (C1_roundtrip_identity exampleFields fooBar fooBar).1 (by decide)

/-- C2: binding a schema definition whose own dict has no binding entry to
a model `A` succeeds; a second binding attempt to `B` fails with the
binding error (a `ValueError`); binding a fresh subclass to `B` succeeds.
The already-bound condition inspects only the definition's own dict, so
the hypothesis constrains nothing about inherited attributes. -/
theorem C2_single_binding_invariant (s : SchemaCls) (A B : ModelCls)
    (hfresh : s.directModelCls = none) :
    ∃ s', bindSchemaCall s A = .ok s' ∧
      (∃ msg, bindSchemaCall s' B = .error (.valueError msg)) ∧
      ∃ s'', bindSchemaCall (subclassSchema s') B = .ok s'' := by
  refine ⟨{ s with ownModelCls := some (some A) }, ?_, ?_, ?_⟩
  · simp [bindSchemaCall, hfresh]
  · exact ⟨_, rfl⟩
  · exact ⟨_, rfl⟩

/-- C2 witness: the binding sequence on a concrete fresh schema class. -/
theorem C2_single_binding_invariant_witness :
    ∃ s', bindSchemaCall ⟨none, none⟩ (ModelCls.user 1) = .ok s' ∧
      (∃ msg, bindSchemaCall s' (ModelCls.user 2) = .error (.valueError msg)) ∧
      ∃ s'', bindSchemaCall (subclassSchema s') (ModelCls.user 2) = .ok s'' :=
  C2_single_binding_invariant ⟨none, none⟩ (ModelCls.user 1) (ModelCls.user 2) rfl

/-- C3: constructing an instance of a bound class runs the original
constructor body (which stores the keyword arguments) and then validates;
on success the instance is returned, and on failure the constructor call
propagates a `ValidationError` and returns no instance at all. -/
theorem C3_construction_all_or_nothing (fields : List FieldDescr) (kwargs : Dict) :
    (validateInstance fields (make_model kwargs) = .ok () →
      construct fields kwargs = .ok (make_model kwargs))
    ∧ ∀ e, validateInstance fields (make_model kwargs) = .error e →
      construct fields kwargs = .error e ∧ e.isValidationError = true := by
  constructor
  · intro hv
    rw [construct, hv]
  · intro e hv
    refine ⟨by rw [construct, hv], ?_⟩
    by_cases hc :
        (loadFields fields (dump_additional_data (dumpFields fields (make_model kwargs))
          (make_model kwargs))).2 = []
    · rw [(validateInstance_ok_iff fields (make_model kwargs)).mpr hc] at hv
      cases hv
    · rw [validateInstance_error fields (make_model kwargs) hc] at hv
      cases hv
      rfl

/-- C3 witness: a successful validated construction at the concrete
scenario. -/
theorem C3_construction_all_or_nothing_witness :
    construct exampleFields fooBar = .ok (make_model fooBar) :=
  (C3_construction_all_or_nothing exampleFields fooBar).1 (by decide)

/-- C4: omitting a required field makes construction fail with a
`ValidationError` whose field messages include the missing-field error;
the spec's concrete scenario (one required string field `name`) succeeds
with `name` supplied, exposes both attributes, dumps to the original map,
and fails with `ValidationError` when constructed with no arguments. -/
theorem C4_required_field_enforcement (fields : List FieldDescr) (kwargs : Dict)
    (f : FieldDescr) (hf : f ∈ fields) (hreq : f.required = true)
    (hmiss : kwargs.find f.name = none) :
    (∃ errs, construct fields kwargs = .error (.validationError (.fieldMessages errs)) ∧
      (f.name, "Missing data for required field.") ∈ errs)
    ∧ (∃ m, construct exampleFields fooBar = .ok m ∧
        m.find "name" = some (Value.str "Foo") ∧
        m.find "other" = some (Value.str "bar") ∧
        ∃ t, to_dict exampleFields m = .ok t ∧ t.equiv fooBar)
    ∧ ∃ e, construct exampleFields [] = .error e ∧ e.isValidationError = true := by
  refine ⟨?_, ⟨fooBar, by decide, by decide, by decide, fooBar, by decide, by decide⟩,
    ⟨.validationError (.fieldMessages [("name", "Missing data for required field.")]),
      by decide, rfl⟩⟩
  have hfe : fieldError f (dump_additional_data (dumpFields fields kwargs) kwargs)
      = some (f.name, "Missing data for required field.") := by
    rw [fieldError, dump_find, hmiss, if_pos hreq]
  have hmem : (f.name, "Missing data for required field.")
      ∈ (loadFields fields (dump_additional_data (dumpFields fields kwargs) kwargs)).2 := by
    rw [loadFields_snd_eq_filterMap]
    exact List.mem_filterMap.mpr ⟨f, hf, hfe⟩
  have hne : (loadFields fields (dump_additional_data (dumpFields fields kwargs) kwargs)).2 ≠ [] :=
    List.ne_nil_of_mem hmem
  refine ⟨_, ?_, hmem⟩
  rw [construct_eq, if_neg hne]

/-- C4 witness: constructing with the required `name` missing at the
concrete scenario. -/
theorem C4_required_field_enforcement_witness :
    ∃ errs, construct exampleFields [] = .error (.validationError (.fieldMessages errs)) ∧
      ("name", "Missing data for required field.") ∈ errs :=
  (C4_required_field_enforcement exampleFields [] ⟨"name", true, FType.str⟩
    (by decide) rfl rfl).1

/-- C5: when the declared fields of a raw map validate, `from_dict`
succeeds and every key present in the map (in particular an undeclared
one) is exposed on the model with its value, and reappears verbatim in
`to_dict`; moreover the collected errors depend only on the declared
field names, so undeclared keys can never cause an error. -/
theorem C5_unknown_field_passthrough (fields : List FieldDescr) (d : Dict)
    (k : String) (v : Value)
    (hdecl : (loadFields fields d).2 = [])
    (hkv : d.find k = some v) :
    (∃ m', from_dict fields d = .ok m' ∧ m'.find k = some v ∧
      ∃ t, to_dict fields m' = .ok t ∧ t.find k = some v)
    ∧ ∀ d₂ : Dict, (∀ f ∈ fields, d₂.find f.name = d.find f.name) →
      (loadFields fields d₂).2 = [] := by
  constructor
  · obtain ⟨m', hm', hfind⟩ := from_dict_ok fields d hdecl
    obtain ⟨t, ht, htf⟩ := to_dict_ok fields m'
    exact ⟨m', hm', by rw [hfind k, hkv], t, ht, by rw [htf k, hfind k, hkv]⟩
  · intro d₂ hagree
    rw [loadFields_snd_congr fields d₂ d hagree, hdecl]

/-- C5 witness: loading the concrete map with the undeclared `extra` key. -/
theorem C5_unknown_field_passthrough_witness :
    ∃ m', from_dict exampleFields withExtra = .ok m' ∧
      m'.find "extra" = some (Value.int 1) ∧
      ∃ t, to_dict exampleFields m' = .ok t ∧ t.find "extra" = some (Value.int 1) :=
  (C5_unknown_field_passthrough exampleFields withExtra "extra" (Value.int 1)
    (by decide) (by decide)).1

/-- C6 counterexample: with choices knowing only the `Book` tag and a
hinter answering `Album`, deserialization selection fails with
marshmallow's `ValidationError` itself, not with an error type distinct
from `ValidationError` as the claim states. -/
theorem C6_schema_selection_counterexample :
    ∃ e, deserializationSelector exampleOneTypeOf [("title", Value.str "X")] = .error e ∧
      e.isValidationError = true :=
  ⟨.validationError (.message "Cannot find a schema. The hint must be one of the choices."),
    rfl, rfl⟩

/-- C6 (amended): when a hint function returns a tag absent from the
choice mapping, selection fails — but with marshmallow's
`ValidationError`, the same error type used for data validation, on both
the load path and the dump path. -/
theorem C6_selector_unknown_tag (o : OneTypeOf) (d : Dict) :
    (lookupChoice o.choices (o.loadHinter d) = none →
      ∃ e, deserializationSelector o d = .error e ∧ e.isValidationError = true)
    ∧ (lookupChoice o.choices (o.dumpHinter d) = none →
      ∃ e, serializationSelector o d = .error e ∧ e.isValidationError = true) := by
  constructor
  · intro h
    refine ⟨.validationError (.message
      "Cannot find a schema. The hint must be one of the choices."), ?_, rfl⟩
    simp [deserializationSelector, h]
  · intro h
    refine ⟨.validationError (.message
      "Cannot find a schema. The hint must be one of the choices."), ?_, rfl⟩
    simp [serializationSelector, h]

/-- C6 witness: the amended claim at the concrete Book/Album scenario. -/
theorem C6_selector_unknown_tag_witness :
    ∃ e, deserializationSelector exampleOneTypeOf [("title", Value.str "X")] = .error e ∧
      e.isValidationError = true :=
  (C6_selector_unknown_tag exampleOneTypeOf [("title", Value.str "X")]).1 rfl

/-- C7: when any declared field is missing-required or ill-typed,
`from_dict` fails with a `ValidationError` whose payload is the complete
list of per-field errors — every failing field contributes its message —
and no model is returned. -/
theorem C7_from_dict_collects_all_errors (fields : List FieldDescr) (d : Dict)
    (f₀ : FieldDescr) (hf₀ : f₀ ∈ fields) (he₀ : fieldError f₀ d ≠ none) :
    ∃ errs, from_dict fields d = .error (.validationError (.fieldMessages errs)) ∧
      errs = (fields.filterMap fun f => fieldError f d) ∧
      ∀ f ∈ fields, ∀ e, fieldError f d = some e → e ∈ errs := by
  obtain ⟨e₀, he₀'⟩ := Option.ne_none_iff_exists'.mp he₀
  have hmem : e₀ ∈ fields.filterMap fun f => fieldError f d :=
    List.mem_filterMap.mpr ⟨f₀, hf₀, he₀'⟩
  have hne : (loadFields fields d).2 ≠ [] := by
    rw [loadFields_snd_eq_filterMap]
    exact List.ne_nil_of_mem hmem
  refine ⟨(loadFields fields d).2, from_dict_error fields d hne,
    loadFields_snd_eq_filterMap fields d, fun f hf e he => ?_⟩
  rw [loadFields_snd_eq_filterMap]
  exact List.mem_filterMap.mpr ⟨f, hf, he⟩

/-- C7 witness: loading a map that misses the required `name` and gives an
ill-typed value for a second required field collects both errors. -/
theorem C7_from_dict_collects_all_errors_witness :
    ∃ errs, from_dict [⟨"name", true, FType.str⟩, ⟨"count", true, FType.int⟩]
        [("count", Value.str "three")]
        = .error (.validationError (.fieldMessages errs)) ∧
      errs = (([⟨"name", true, FType.str⟩, ⟨"count", true, FType.int⟩] :
          List FieldDescr).filterMap
        fun f => fieldError f [("count", Value.str "three")]) ∧
      ∀ f ∈ ([⟨"name", true, FType.str⟩, ⟨"count", true, FType.int⟩] : List FieldDescr),
        ∀ e, fieldError f [("count", Value.str "three")] = some e → e ∈ errs :=
  C7_from_dict_collects_all_errors [⟨"name", true, FType.str⟩, ⟨"count", true, FType.int⟩]
    [("count", Value.str "three")] ⟨"name", true, FType.str⟩ (by decide) (by decide)

/-- C8: the binder of `qiskit/models/base.py` performs no already-bound
check, so binding the same schema class to a second model type never
raises; the second binding overwrites the schema class's `model_cls`, and
since every schema instance reads `model_cls` off the shared schema class
at call time, `from_dict` through either bound model class constructs
instances of the most recently bound type. -/
theorem C8_rebinding_overwrites (st : MSchemaCls) (A B : ModelCls)
    (fields : List FieldDescr) (d : Dict)
    (hload : (loadFields fields d).2 = []) :
    ∃ st₁ st₂, mBindSchemaCall st A = .ok st₁ ∧ mBindSchemaCall st₁ B = .ok st₂ ∧
      st₂.model_cls = B ∧
      ∃ attrs, mFromDict st₂ fields d = .ok (B, attrs) ∧
        ∀ k, attrs.find k = d.find k := by
  refine ⟨⟨A⟩, ⟨B⟩, rfl, rfl, rfl,
    load_additional_data (loadFields fields d).1 d, ?_, fun k =>
      find_load_additional_data _ d (loadFields_fst_find_sub fields d) k⟩
  rw [mFromDict]
  simp [hload, mMakeModel]

/-- C8 witness: rebinding the concrete schema and loading the concrete
map. -/
theorem C8_rebinding_overwrites_witness :
    ∃ st₁ st₂, mBindSchemaCall ⟨ModelCls.simpleNamespace⟩ (ModelCls.user 1) = .ok st₁ ∧
      mBindSchemaCall st₁ (ModelCls.user 2) = .ok st₂ ∧
      st₂.model_cls = ModelCls.user 2 ∧
      ∃ attrs, mFromDict st₂ exampleFields fooBar = .ok (ModelCls.user 2, attrs) ∧
        ∀ k, attrs.find k = Dict.find fooBar k :=
  C8_rebinding_overwrites ⟨ModelCls.simpleNamespace⟩ (ModelCls.user 1) (ModelCls.user 2)
    exampleFields fooBar (by decide)

/-- C9: `BaseSchema` declares `model_cls = SimpleNamespace` directly in its
own class dict, so the direct-attribute already-bound check finds a
non-`None` binding and rejects any attempt to bind `BaseSchema` itself,
even though it was never bound to a user model. -/
theorem C9_base_schema_self_bind_fails (m : ModelCls) :
    BaseSchemaCls.directModelCls = some ModelCls.simpleNamespace ∧
    ∃ msg, bindSchemaCall BaseSchemaCls m = .error (.valueError msg) :=
  ⟨rfl, _, rfl⟩

/-- C10: an `OneTypeOf` built without a `dump_hinter` uses its load hinter
for serialization selection too, so the schema chosen on dump is exactly
the schema the load hinter would choose for the same value. -/
theorem C10_dump_hinter_defaults (choices : List (String × SchemaId))
    (hinter : Dict → String) (v : Dict) :
    (OneTypeOf.init choices hinter none).dumpHinter v = hinter v ∧
    serializationSelector (OneTypeOf.init choices hinter none) v =
      deserializationSelector (OneTypeOf.init choices hinter none) v :=
  ⟨rfl, rfl⟩

end QiskitValidation
